import Mathlib

/-!
Verification of the color-rs library (src/rgb.rs): the generic RGB color type, its
clamp / invert / convert operations, and the RGB → HSV conversion algorithm.

Embedding conventions:
* Integral channel representations (u8, u16, ...) are embedded as `Nat` together with the
  representation maximum (255 for u8, 65535 for u16); all source arithmetic on them stays
  inside these bounds, so no wraparound modelling is needed.
* Floating-point channel representations are idealised as exact rational arithmetic (`ℚ`).
* Rust's `%` operator on floating-point values is the truncated remainder
  `x - y * trunc(x / y)` (it keeps the sign of the dividend); it is embedded as `rustRem`.
* A Rust `panic!` does not return a value to the caller; a function that can panic is
  embedded with the `RustOutcome` sum, whose `panicked` constructor carries the panic message.
* The `Channel` trait implementations (`clamp`, `invert_channel`, `to_channel`) and the `Hsv`
  struct live outside the given source file; they are modelled from the spec where noted.
-/

/-- The RGB color type (src/rgb.rs line 23): a triple of channel values of one representation. -/
structure Rgb (α : Type) where
  r : α
  g : α
  b : α
deriving DecidableEq

/-- The HSV color type (external collaborator of src/rgb.rs; spec section 3): hue, saturation,
value fields in a floating representation, idealised as `ℚ`. -/
structure Hsv (α : Type) where
  h : α
  s : α
  v : α
deriving DecidableEq

/-- Truncation of a rational toward zero, as an integer. -/
def ratTrunc (q : ℚ) : ℤ := if 0 ≤ q then ⌊q⌋ else -⌊-q⌋

/-- Rust's `%` operator on floating-point values: the remainder `x - y * trunc(x / y)`,
which has the same sign as the dividend `x` (it is NOT a Euclidean modulo). -/
def rustRem (x y : ℚ) : ℚ := x - y * (ratTrunc (x / y) : ℚ)

/-- Modelled from the spec: the missing `Channel` trait's `clamp(value, lo, hi)` restricts the
value to the closed interval `[lo, hi]` (spec section 4.1); behaviour for `lo > hi` is
implementation-defined. -/
def Channel.clamp {α : Type} [LinearOrder α] (v lo hi : α) : α :=
  if v < lo then lo else if hi < v then hi else v

/-- Modelled from the spec: the missing `Channel` trait's `invert_channel` for an integral
representation with maximum `m` returns "representation-max minus the value" (spec section 3). -/
def Channel.invert_channel (m v : Nat) : Nat := m - v

/-- Modelled from the spec: the missing `Channel` trait's `to_channel` between two integral
representations is "a linear rescale between the two representations' full ranges"
(spec section 4.1), realised with truncating natural division; it maps `0 ↦ 0` and
`srcMax ↦ dstMax`, and gives exact bit replication for the 8-bit to 16-bit case. -/
def Channel.to_channel (srcMax dstMax v : Nat) : Nat := v * dstMax / srcMax

/-- Modelled from the spec: the missing `Channel` trait's `to_channel` from an integral
representation with maximum `srcMax` to a floating representation rescales the full integral
range onto `[0, 1]` (spec sections 3 and 4.1). -/
def Channel.to_channelQ (srcMax : Nat) (v : Nat) : ℚ := (v : ℚ) / (srcMax : ℚ)

/-- Modelled from the spec: the missing `Channel` trait's `to_channel` within the same floating
representation; "Converting within the same representation is the identity" (spec section 4.1). -/
def Channel.to_channelQQ (v : ℚ) : ℚ := v

/-- `clamp_s` (src/rgb.rs lines 39-43): clamps every component of the color to the range
`(lo, hi)` using the channel-level clamp. -/
def Rgb.clamp_s {α : Type} [LinearOrder α] (c : Rgb α) (lo hi : α) : Rgb α :=
  Rgb.mk (Channel.clamp c.r lo hi) (Channel.clamp c.g lo hi) (Channel.clamp c.b lo hi)

/-- `clamp_c` (src/rgb.rs lines 47-51): component-wise clamp between two RGB bounds. -/
def Rgb.clamp_c {α : Type} [LinearOrder α] (c lo hi : Rgb α) : Rgb α :=
  Rgb.mk (Channel.clamp c.r lo.r hi.r) (Channel.clamp c.g lo.g hi.g) (Channel.clamp c.b lo.b hi.b)

/-- `inverse` (src/rgb.rs lines 55-59): inverts the color by inverting each channel, for an
integral representation with maximum `m`. -/
def Rgb.inverse (m : Nat) (c : Rgb Nat) : Rgb Nat :=
  Rgb.mk (Channel.invert_channel m c.r) (Channel.invert_channel m c.g)
    (Channel.invert_channel m c.b)

/-- `to_rgb` for `Rgb<T>` (src/rgb.rs lines 98-105) between integral representations with
maxima `srcMax` and `dstMax`: converts each channel with `to_channel`. -/
def Rgb.to_rgb (srcMax dstMax : Nat) (c : Rgb Nat) : Rgb Nat :=
  Rgb.mk (Channel.to_channel srcMax dstMax c.r) (Channel.to_channel srcMax dstMax c.g)
    (Channel.to_channel srcMax dstMax c.b)

/-- `to_rgb` for `Rgb<T>` (src/rgb.rs lines 98-105) from an integral representation with
maximum `srcMax` to a floating representation: converts each channel with `to_channel`. -/
def Rgb.to_rgbQ (srcMax : Nat) (c : Rgb Nat) : Rgb ℚ :=
  Rgb.mk (Channel.to_channelQ srcMax c.r) (Channel.to_channelQ srcMax c.g)
    (Channel.to_channelQ srcMax c.b)

/-- `to_rgb` for `Rgb<T>` (src/rgb.rs lines 98-105) from a floating representation to itself:
converts each channel with `to_channel`. -/
def Rgb.to_rgbQQ (c : Rgb ℚ) : Rgb ℚ :=
  Rgb.mk (Channel.to_channelQQ c.r) (Channel.to_channelQQ c.g) (Channel.to_channelQQ c.b)

/-- Outcome of calling a Rust function that may panic: either a returned value or a panic
carrying the panic message. A panic unwinds the stack instead of returning a value. -/
inductive RustOutcome (α : Type) where
  | ret : α → RustOutcome α
  | panicked : String → RustOutcome α
deriving DecidableEq

/-- `to_rgb` for `u32` (src/rgb.rs lines 84-89): the entire body is
`panic!("Not yet implemented")`. The declared Rust return type is a plain RGB value (not a
Result), so no error value can be returned; every invocation panics. -/
def u32.to_rgb (_ : Nat) : RustOutcome (Rgb Nat) := RustOutcome.panicked "Not yet implemented"

/-- `to_rgb` for `u64` (src/rgb.rs lines 91-96): the entire body is
`panic!("Not yet implemented")`, exactly as for `u32`. -/
def u64.to_rgb (_ : Nat) : RustOutcome (Rgb Nat) := RustOutcome.panicked "Not yet implemented"

/-- `mx` of `to_hsv` (src/rgb.rs line 115): `rgb_u.r.max(rgb_u.g).max(rgb_u.b)`. -/
def hsvMax (u : Rgb ℚ) : ℚ := max (max u.r u.g) u.b

/-- `mn` of `to_hsv` (src/rgb.rs line 116): `rgb_u.r.min(rgb_u.g).min(rgb_u.b)`. -/
def hsvMin (u : Rgb ℚ) : ℚ := min (min u.r u.g) u.b

/-- `chr` of `to_hsv` (src/rgb.rs line 117): the chroma `mx - mn`. -/
def hsvChr (u : Rgb ℚ) : ℚ := hsvMax u - hsvMin u

/-- Body of `to_hsv` (src/rgb.rs lines 115-133) after the initial `to_rgb::<U>()` conversion:
if the chroma is nonzero, the hue is picked by which channel attains the maximum (r first,
then g, then b), with Rust float `%` (`rustRem`) in the red-max branch, then scaled by 60;
saturation is `chr / mx` and value is `mx`. Otherwise hue and saturation are zero. -/
def hsvFromRgbQ (u : Rgb ℚ) : Hsv ℚ :=
  if hsvChr u ≠ 0 then
    Hsv.mk
      ((if u.r = hsvMax u then rustRem ((u.g - u.b) / hsvChr u) 6
        else if u.g = hsvMax u then (u.b - u.r) / hsvChr u + 2
        else (u.r - u.g) / hsvChr u + 4) * 60)
      (hsvChr u / hsvMax u) (hsvMax u)
  else
    Hsv.mk 0 0 (hsvMax u)

/-- `to_hsv` (src/rgb.rs lines 107-134) for an integral-channel RGB value with representation
maximum `srcMax` and a floating target idealised as `ℚ`: first convert the channels to the
floating representation, then run the branch logic of `hsvFromRgbQ`. -/
def Rgb.to_hsv (srcMax : Nat) (c : Rgb Nat) : Hsv ℚ := hsvFromRgbQ (c.to_rgbQ srcMax)

lemma hsvMin_le_hsvMax (u : Rgb ℚ) : hsvMin u ≤ hsvMax u :=
  le_trans (min_le_left _ _)
    (le_trans (min_le_left _ _) (le_trans (le_max_left _ _) (le_max_left _ _)))

lemma hsvMin_nonneg (u : Rgb ℚ) (hr : 0 ≤ u.r) (hg : 0 ≤ u.g) (hb : 0 ≤ u.b) :
    0 ≤ hsvMin u :=
  le_min (le_min hr hg) hb

lemma hsvMax_pos (u : Rgb ℚ) (hr : 0 ≤ u.r) (hg : 0 ≤ u.g) (hb : 0 ≤ u.b)
    (hchr : hsvChr u ≠ 0) : 0 < hsvMax u := by
  have h1 : hsvMin u ≤ hsvMax u := hsvMin_le_hsvMax u
  have h2 : 0 ≤ hsvMin u := hsvMin_nonneg u hr hg hb
  rcases lt_or_eq_of_le h1 with h | h
  · linarith
  · exfalso
    apply hchr
    rw [hsvChr, ← h, sub_self]

lemma to_rgbQ_nonneg (m : Nat) (c : Rgb Nat) :
    0 ≤ (c.to_rgbQ m).r ∧ 0 ≤ (c.to_rgbQ m).g ∧ 0 ≤ (c.to_rgbQ m).b := by
  refine ⟨?_, ?_, ?_⟩ <;> simp only [Rgb.to_rgbQ, Channel.to_channelQ] <;> positivity

lemma hsvFromRgbQ_sat_mem (u : Rgb ℚ) (hr : 0 ≤ u.r) (hg : 0 ≤ u.g) (hb : 0 ≤ u.b) :
    0 ≤ (hsvFromRgbQ u).s ∧ (hsvFromRgbQ u).s ≤ 1 := by
  have hs : (hsvFromRgbQ u).s = if hsvChr u ≠ 0 then hsvChr u / hsvMax u else 0 := by
    rw [hsvFromRgbQ]
    split_ifs <;> rfl
  rw [hs]
  split_ifs with h
  · have hmx : 0 < hsvMax u := hsvMax_pos u hr hg hb h
    have hmn : 0 ≤ hsvMin u := hsvMin_nonneg u hr hg hb
    have hle : hsvMin u ≤ hsvMax u := hsvMin_le_hsvMax u
    constructor
    · apply div_nonneg _ (le_of_lt hmx)
      rw [hsvChr]
      linarith
    · rw [div_le_one hmx, hsvChr]
      linarith
  · simp

/-- C1 (code bug): the red-max branch of `to_hsv` does not wrap a negative raw hue segment
into `[0, 6)`. At the non-degenerate 8-bit input (0xFF, 0x00, 0x01) (red maximal, g < b) the
raw segment is `-1/255`, Rust's float `%` keeps it negative, and the resulting hue is
`-4/17 ≈ -0.235`, which lies outside `[0, 360)`. -/
theorem to_hsv_hue_negative_at_red_max :
    ((Rgb.mk 0xFF 0x00 0x01).to_hsv 255).h = -4/17 ∧
    ((Rgb.mk 0xFF 0x00 0x01).to_hsv 255).h < 0 := by
  constructor <;>
    norm_num [Rgb.to_hsv, hsvFromRgbQ, Rgb.to_rgbQ, Channel.to_channelQ, hsvMax, hsvMin,
      hsvChr, rustRem, ratTrunc]

/-- C2: for every integral-channel RGB value with r = g = b (any representation maximum `m`),
`to_hsv` returns hue 0, saturation 0, and value equal to the common channel value rescaled to
the floating target; in particular 8-bit white (0xFF, 0xFF, 0xFF) maps to (0, 0, 1) and black
to (0, 0, 0). -/
theorem to_hsv_achromatic :
    (∀ m v : Nat, Rgb.to_hsv m (Rgb.mk v v v) = Hsv.mk 0 0 ((v : ℚ) / (m : ℚ))) ∧
    Rgb.to_hsv 255 (Rgb.mk 0xFF 0xFF 0xFF) = Hsv.mk 0 0 1 ∧
    Rgb.to_hsv 255 (Rgb.mk 0 0 0) = Hsv.mk 0 0 0 := by
  have key : ∀ m v : Nat, Rgb.to_hsv m (Rgb.mk v v v) = Hsv.mk 0 0 ((v : ℚ) / (m : ℚ)) := by
    intro m v
    simp [Rgb.to_hsv, hsvFromRgbQ, Rgb.to_rgbQ, Channel.to_channelQ, hsvChr, hsvMax, hsvMin]
  refine ⟨key, ?_, ?_⟩ <;> rw [key] <;> norm_num

/-- C3: in `to_hsv`, the saturation division `chr / mx` is performed only on the branch where
the chroma is nonzero, and for every integral-channel input (any representation maximum `m`)
a nonzero chroma forces the maximum channel `mx` to be nonzero (channels are non-negative and
`mn ≤ mx`), so the division is never a division by zero. -/
theorem to_hsv_no_div_by_zero (m : Nat) (c : Rgb Nat) (hchr : hsvChr (c.to_rgbQ m) ≠ 0) :
    hsvMax (c.to_rgbQ m) ≠ 0 ∧
    (c.to_hsv m).s = hsvChr (c.to_rgbQ m) / hsvMax (c.to_rgbQ m) := by
  obtain ⟨hr, hg, hb⟩ := to_rgbQ_nonneg m c
  constructor
  · exact ne_of_gt (hsvMax_pos _ hr hg hb hchr)
  · rw [Rgb.to_hsv, hsvFromRgbQ, if_pos hchr]

theorem to_hsv_no_div_by_zero_witness :
    hsvChr ((Rgb.mk 255 0 0).to_rgbQ 255) ≠ 0 ∧
    (hsvMax ((Rgb.mk 255 0 0).to_rgbQ 255) ≠ 0 ∧
      ((Rgb.mk 255 0 0).to_hsv 255).s =
        hsvChr ((Rgb.mk 255 0 0).to_rgbQ 255) / hsvMax ((Rgb.mk 255 0 0).to_rgbQ 255)) :=
  ⟨by norm_num [hsvChr, hsvMax, hsvMin, Rgb.to_rgbQ, Channel.to_channelQ],
   to_hsv_no_div_by_zero 255 (Rgb.mk 255 0 0)
     (by norm_num [hsvChr, hsvMax, hsvMin, Rgb.to_rgbQ, Channel.to_channelQ])⟩

/-- C4: `to_hsv` on 8-bit RGB maps (0x99, 0, 0) to HSV (0, 1, 0.6), (0, 0x99, 0) to
HSV (120, 1, 0.6), (0, 0, 0x99) to HSV (240, 1, 0.6), and (0xFF, 0xFF, 0xFF) to HSV (0, 0, 1),
with the floating target idealised as exact rationals. -/
theorem to_hsv_primary_anchors :
    Rgb.to_hsv 255 (Rgb.mk 0x99 0x00 0x00) = Hsv.mk 0 1 0.6 ∧
    Rgb.to_hsv 255 (Rgb.mk 0x00 0x99 0x00) = Hsv.mk 120 1 0.6 ∧
    Rgb.to_hsv 255 (Rgb.mk 0x00 0x00 0x99) = Hsv.mk 240 1 0.6 ∧
    Rgb.to_hsv 255 (Rgb.mk 0xFF 0xFF 0xFF) = Hsv.mk 0 0 1 := by
  refine ⟨?_, ?_, ?_, ?_⟩ <;>
    norm_num [Rgb.to_hsv, hsvFromRgbQ, Rgb.to_rgbQ, Channel.to_channelQ, hsvMax, hsvMin,
      hsvChr, rustRem, ratTrunc]

/-- C5: converting an RGB value to its own channel representation is the identity, both for an
integral representation with (positive) maximum `m` and for the floating representation. -/
theorem to_rgb_self_identity (m : Nat) (hm : 0 < m) (c : Rgb Nat) (q : Rgb ℚ) :
    Rgb.to_rgb m m c = c ∧ Rgb.to_rgbQQ q = q := by
  constructor
  · cases c with
    | mk r g b => simp [Rgb.to_rgb, Channel.to_channel, Nat.mul_div_cancel _ hm]
  · cases q with
    | mk r g b => rfl

theorem to_rgb_self_identity_witness :
    0 < 255 ∧
    (Rgb.to_rgb 255 255 (Rgb.mk 1 2 3) = Rgb.mk 1 2 3 ∧
      Rgb.to_rgbQQ (Rgb.mk 0 (1/2) 1) = Rgb.mk 0 (1/2) 1) :=
  ⟨by decide, to_rgb_self_identity 255 (by decide) (Rgb.mk 1 2 3) (Rgb.mk 0 (1/2) 1)⟩

/-- C6: converting the 8-bit RGB value (0xA0, 0xA0, 0xA0) to the 16-bit representation yields
(0xA0A0, 0xA0A0, 0xA0A0) — exact bit replication per channel — and converting that 16-bit
value back to 8 bits returns the original (0xA0, 0xA0, 0xA0). -/
theorem to_rgb_rescale_0xA0 :
    Rgb.to_rgb 255 65535 (Rgb.mk 0xA0 0xA0 0xA0) = Rgb.mk 0xA0A0 0xA0A0 0xA0A0 ∧
    Rgb.to_rgb 65535 255 (Rgb.mk 0xA0A0 0xA0A0 0xA0A0) = Rgb.mk 0xA0 0xA0 0xA0 := by
  decide

/-- C7: for an integral channel representation with maximum `m`, applying `inverse` twice is
the identity on every RGB value whose channels lie in the representation (each at most `m`). -/
theorem inverse_involution (m : Nat) (c : Rgb Nat)
    (hr : c.r ≤ m) (hg : c.g ≤ m) (hb : c.b ≤ m) :
    Rgb.inverse m (Rgb.inverse m c) = c := by
  cases c with
  | mk r g b =>
    simp only [Rgb.inverse, Channel.invert_channel]
    simp [Nat.sub_sub_self hr, Nat.sub_sub_self hg, Nat.sub_sub_self hb]

theorem inverse_involution_witness :
    ((10 : Nat) ≤ 255 ∧ (20 : Nat) ≤ 255 ∧ (30 : Nat) ≤ 255) ∧
    Rgb.inverse 255 (Rgb.inverse 255 (Rgb.mk 10 20 30)) = Rgb.mk 10 20 30 :=
  ⟨⟨by decide, by decide, by decide⟩,
   inverse_involution 255 (Rgb.mk 10 20 30) (by decide) (by decide) (by decide)⟩

lemma Channel.clamp_mem {α : Type} [LinearOrder α] (v lo hi : α) (h : lo ≤ hi) :
    lo ≤ Channel.clamp v lo hi ∧ Channel.clamp v lo hi ≤ hi := by
  rw [Channel.clamp]
  split_ifs with h1 h2
  · exact ⟨le_refl lo, h⟩
  · exact ⟨h, le_refl hi⟩
  · exact ⟨le_of_not_lt h1, le_of_not_lt h2⟩

/-- C8: for all channel bounds lo ≤ hi and every RGB value, each of the three channels of
`clamp_s lo hi` lies in the closed interval `[lo, hi]`. -/
theorem clamp_s_containment {α : Type} [LinearOrder α] (c : Rgb α) (lo hi : α) (h : lo ≤ hi) :
    (lo ≤ (c.clamp_s lo hi).r ∧ (c.clamp_s lo hi).r ≤ hi) ∧
    (lo ≤ (c.clamp_s lo hi).g ∧ (c.clamp_s lo hi).g ≤ hi) ∧
    (lo ≤ (c.clamp_s lo hi).b ∧ (c.clamp_s lo hi).b ≤ hi) :=
  ⟨Channel.clamp_mem c.r lo hi h, Channel.clamp_mem c.g lo hi h, Channel.clamp_mem c.b lo hi h⟩

theorem clamp_s_containment_witness :
    (2 : Nat) ≤ 5 ∧
    ((2 ≤ ((Rgb.mk 0 3 9 : Rgb Nat).clamp_s 2 5).r ∧ ((Rgb.mk 0 3 9 : Rgb Nat).clamp_s 2 5).r ≤ 5) ∧
     (2 ≤ ((Rgb.mk 0 3 9 : Rgb Nat).clamp_s 2 5).g ∧ ((Rgb.mk 0 3 9 : Rgb Nat).clamp_s 2 5).g ≤ 5) ∧
     (2 ≤ ((Rgb.mk 0 3 9 : Rgb Nat).clamp_s 2 5).b ∧ ((Rgb.mk 0 3 9 : Rgb Nat).clamp_s 2 5).b ≤ 5)) :=
  ⟨by decide, clamp_s_containment (Rgb.mk 0 3 9) 2 5 (by decide)⟩

/-- C9 counterexample: invoked at the concrete input 0, both integer-packing conversions end
in a panic with message "Not yet implemented" — a stack-unwinding crash, not a returned
"not supported" error value (their Rust return type has no error variant at all). -/
theorem u32_u64_to_rgb_panic_at_zero :
    u32.to_rgb 0 = RustOutcome.panicked "Not yet implemented" ∧
    u64.to_rgb 0 = RustOutcome.panicked "Not yet implemented" :=
  ⟨rfl, rfl⟩

/-- C9 (amended): the `to_rgb` conversions from u32 and from u64 fail unconditionally whenever
invoked; the failure is a panic with message "Not yet implemented" (a runtime crash by stack
unwinding), not an explicit "not supported" error result returned to the caller. -/
theorem u32_u64_to_rgb_unimplemented (x y : Nat) :
    u32.to_rgb x = RustOutcome.panicked "Not yet implemented" ∧
    u64.to_rgb y = RustOutcome.panicked "Not yet implemented" :=
  ⟨rfl, rfl⟩

/-- C10: for every integral-channel RGB input (any representation maximum `m`), the saturation
field of the HSV value returned by `to_hsv` lies in the closed interval `[0, 1]`: it is 0 in
the degenerate branch, and `chr / mx` with `0 ≤ chr ≤ mx` in the general branch. -/
theorem to_hsv_sat_range (m : Nat) (c : Rgb Nat) :
    0 ≤ (c.to_hsv m).s ∧ (c.to_hsv m).s ≤ 1 := by
  obtain ⟨hr, hg, hb⟩ := to_rgbQ_nonneg m c
  exact hsvFromRgbQ_sat_mem _ hr hg hb
